import Mathlib

/-!
Verification of `pmg` (`src/bin/bump.js`, with an earlier draft in
`src/unnamed/part_000`): a tool that bumps a dependency version in
`package.json`, commits the change on a new branch, pushes it and opens a
pull request.

The embedding models:
- the parsed `package.json` manifest as a `Json` value (JSON numbers are
  restricted to integers; none of the verified properties depends on float
  formatting),
- `JSON.stringify(v, null, 2)` as `jsonStringify2`,
- the sanitization of package name and version used for branch and commit
  naming (`safeVersion`, `safePackageName`),
- `internals.getBaseUrl`,
- the whole `exports.bump` workflow as a function from an environment of
  collaborator responses (`Env`) to the ordered list of performed external
  effects (`List Event`) together with the run's outcome
  (`Except BumpError (Option String)`; the `Option String` is the value the
  JS async function resolves with, `none` standing for `undefined`).
-/

namespace Pmg

/-- Parsed JSON value (JSON numbers restricted to integers). -/
inductive Json where
  | null : Json
  | bool (b : Bool) : Json
  | num (n : Int) : Json
  | str (s : String) : Json
  | arr (items : List Json) : Json
  | obj (fields : List (String × Json)) : Json

/-- First-match lookup in a JS-object field list (JSON.parse produces
unique keys, so first match is the stored value). -/
def lookupField : List (String × Json) → String → Option Json
  | [], _ => none
  | (k, v) :: rest, key => if k = key then some v else lookupField rest key

/-- Whether a field list has an entry for `key`. -/
def containsKey (fields : List (String × Json)) (key : String) : Bool :=
  fields.any (fun p => p.1 = key)

/-- Replace every entry for `key` by `(key, v)`, keeping positions
(JSON.parse produces unique keys, so at most one entry is replaced). -/
def setKeyList : List (String × Json) → String → Json → List (String × Json)
  | [], _, _ => []
  | (k0, v0) :: rest, key, v =>
      if k0 = key then (key, v) :: setKeyList rest key v
      else (k0, v0) :: setKeyList rest key v

/-- JS assignment `o[key] = v`: updates the entry in place when the key is
present (order preserved), otherwise appends it. -/
def setKey (fields : List (String × Json)) (key : String) (v : Json) :
    List (String × Json) :=
  if containsKey fields key then setKeyList fields key v
  else fields ++ [(key, v)]

/-- JS property read `o[key]` on an arbitrary value: a field lookup on
objects, `undefined` (here `none`) on everything else. Reads on `null`
throw in JS; callers handle that case themselves. -/
def jsGetField : Json → String → Option Json
  | .obj fields, key => lookupField fields key
  | _, _ => none

/-- Two hex digits of a byte, for `\u00XX` escapes. -/
def hexDigit (n : Nat) : Char :=
  if n < 10 then Char.ofNat (48 + n) else Char.ofNat (87 + n)

/-- JSON string escaping of one character, as in `JSON.stringify`. -/
def escapeChar (c : Char) : String :=
  if c = '"' then "\\\""
  else if c = '\\' then "\\\\"
  else if c = '\n' then "\\n"
  else if c = '\t' then "\\t"
  else if c = '\r' then "\\r"
  else if c = Char.ofNat 8 then "\\b"
  else if c = Char.ofNat 12 then "\\f"
  else if c.toNat < 32 then
    "\\u00" ++ String.mk [hexDigit (c.toNat / 16), hexDigit (c.toNat % 16)]
  else String.singleton c

/-- JSON string literal for `s`, as in `JSON.stringify`. -/
def escapeString (s : String) : String :=
  "\"" ++ String.join (s.data.map escapeChar) ++ "\""

/-- `n` spaces. -/
def spaces (n : Nat) : String :=
  String.mk (List.replicate n ' ')

mutual

/-- `JSON.stringify(v, null, 2)` at surrounding indentation `ind` (the
indentation of the value's closing bracket). -/
def stringifyAt : Nat → Json → String
  | _, .null => "null"
  | _, .bool true => "true"
  | _, .bool false => "false"
  | _, .num n => toString n
  | _, .str s => escapeString s
  | _, .arr [] => "[]"
  | ind, .arr (v :: rest) =>
      "[\n" ++ String.intercalate ",\n" (stringifyItems (ind + 2) (v :: rest)) ++
        "\n" ++ spaces ind ++ "]"
  | _, .obj [] => "\x7b\x7d"
  | ind, .obj (f :: rest) =>
      "\x7b\n" ++ String.intercalate ",\n" (stringifyFields (ind + 2) (f :: rest)) ++
        "\n" ++ spaces ind ++ "\x7d"

/-- The serialized lines of an array's items at indentation `ind`. -/
def stringifyItems : Nat → List Json → List String
  | _, [] => []
  | ind, v :: rest => (spaces ind ++ stringifyAt ind v) :: stringifyItems ind rest

/-- The serialized lines of an object's members at indentation `ind`. -/
def stringifyFields : Nat → List (String × Json) → List String
  | _, [] => []
  | ind, (k, v) :: rest =>
      (spaces ind ++ escapeString k ++ ": " ++ stringifyAt ind v) ::
        stringifyFields ind rest

end

/-- `JSON.stringify(v, null, 2)`. -/
def jsonStringify2 (v : Json) : String :=
  stringifyAt 0 v

/-- `afterVersion.replace(/[\^\~]/g, '')` from the source: removes every
`^` and `~`. -/
def regexRemoveCaretTilde : List Char → List Char
  | [] => []
  | c :: rest =>
      if c = '^' ∨ c = '~' then regexRemoveCaretTilde rest
      else c :: regexRemoveCaretTilde rest

/-- `safeVersion` of the source. -/
def safeVersion (afterVersion : String) : String :=
  String.mk (regexRemoveCaretTilde afterVersion.data)

/-- JS `String.prototype.replace` with a one-character string pattern:
replaces only the FIRST occurrence of `target` with `rep`. -/
def jsReplaceFirst (target : Char) (rep : List Char) : List Char → List Char
  | [] => []
  | c :: rest =>
      if c = target then rep ++ rest else c :: jsReplaceFirst target rep rest

/-- `safePackageName` of the source:
`packageName.replace('@', '').replace('/', '-')`. -/
def safePackageName (packageName : String) : String :=
  String.mk (jsReplaceFirst '/' ['-'] (jsReplaceFirst '@' [] packageName.data))

/-- The branch name derived in `bump`. -/
def bumpBranchName (packageName afterVersion : String) : String :=
  "bump-" ++ safePackageName packageName ++ "-v" ++ safeVersion afterVersion

/-- The commit message derived in `bump`. -/
def bumpCommitMessage (packageName afterVersion : String) : String :=
  "Bump " ++ safePackageName packageName ++ " to v" ++ safeVersion afterVersion

/-- `internals.getBaseUrl` of the source. -/
def getBaseUrl (hostName : String) : String :=
  if hostName = "github.com" then "https://api.github.com"
  else "https://" ++ hostName ++ "/api/v3"

/-- `{ host, owner, name }` derived by `internals.getRepoInfo` from the
`origin` remote URL. -/
structure RepoInfo where
  host : String
  owner : String
  name : String
deriving DecidableEq, Repr

/-- JS truthiness of an environment variable (`undefined` and the empty
string are falsy; `Hoek.assert` throws on falsy values). -/
def truthy : Option String → Bool
  | none => false
  | some s => s ≠ ""

/-- The error a run aborts with, classified as in the spec's taxonomy.
`runtime` stands for a thrown JS `SyntaxError`/`TypeError` (bad JSON, or a
property read on `null`/`undefined`). -/
inductive BumpError where
  | configuration (msg : String)
  | precondition (msg : String)
  | versionControl (msg : String)
  | runtime (msg : String)
  | hostingApi (msg : String)
deriving DecidableEq, Repr

/-- One externally observable effect of a run, in order of occurrence.
`getRemote`, `statusCheck`, `fetchAll`, `mergeBranches` and `readManifest`
are the read/sync steps; `checkoutBranch`, `createBranch`,
`writeManifest`, `commit` and `push` mutate the working copy or the
remote; `createPR` is the hosting-API call; `printLine` is stdout. -/
inductive Event where
  | getRemote (name : String)
  | statusCheck
  | checkoutBranch (name : String)
  | fetchAll
  | mergeBranches (lcl rmt : String)
  | readManifest
  | createBranch (name : String)
  | writeManifest (content : String)
  | commit (paths : List String) (message : String)
  | push (refspec : String)
  | printLine (s : String)
  | createPR (owner repo head base title : String)
deriving DecidableEq, Repr

/-- Responses of the external collaborators (git engine, filesystem,
hosting API) consumed by one run, in the order the run consults them. -/
structure Env where
  githubUsername : Option String
  githubPassword : Option String
  repoInfo : Except String RepoInfo
  hasUncommittedChanges : Bool
  checkoutMasterOk : Bool
  fetchOk : Bool
  mergeOk : Bool
  manifest : Except String Json
  createBranchOk : Bool
  checkoutNewOk : Bool
  commitOk : Bool
  pushOk : Bool
  prResult : Except String String

/-- The manifest after `pkg.dependencies[packageName] = afterVersion`:
the dependencies entry is updated in place, everything else kept. -/
def updatedManifest (mf df : List (String × Json))
    (packageName afterVersion : String) : Json :=
  Json.obj (setKey mf "dependencies" (Json.obj (setKey df packageName (Json.str afterVersion))))

/-- The tail of the run from the point where the version precondition has
passed (`mf` the manifest's fields, `df` the dependencies' fields):
branch creation, checkout, manifest write, commit, push, PR creation. -/
def bumpAfterVersionCheck (env : Env) (info : RepoInfo)
    (mf df : List (String × Json)) (packageName afterVersion : String)
    (evs : List Event) : List Event × Except BumpError (Option String) :=
  let branchName := bumpBranchName packageName afterVersion
  let commitMessage := bumpCommitMessage packageName afterVersion
  let evBranch := evs ++ [Event.createBranch branchName]
  match env.createBranchOk with
  | false => (evBranch, .error (.versionControl "create branch failed"))
  | true =>
    let evCheckout := evBranch ++ [Event.checkoutBranch branchName]
    match env.checkoutNewOk with
    | false => (evCheckout, .error (.versionControl "checkout branch failed"))
    | true =>
      let content := jsonStringify2 (updatedManifest mf df packageName afterVersion) ++ "\n"
      let evWrite := evCheckout ++ [Event.writeManifest content]
      let evCommit := evWrite ++ [Event.commit ["package.json"] commitMessage]
      match env.commitOk with
      | false => (evCommit, .error (.versionControl "commit failed"))
      | true =>
        let refspec := "refs/heads/" ++ branchName ++ ":refs/heads/" ++ branchName
        let evPush := evCommit ++ [Event.push refspec]
        match env.pushOk with
        | false => (evPush, .error (.versionControl "push failed"))
        | true =>
          let evPushed := evPush ++
            [Event.printLine ("Pushed " ++ branchName ++ " to " ++ info.owner ++ "/" ++ info.name)]
          let evPR := evPushed ++
            [Event.createPR info.owner info.name branchName "master"
              ("[Technical] " ++ commitMessage)]
          match env.prResult with
          | .error e => (evPR, .error (.hostingApi e))
          | .ok url => (evPR ++ [Event.printLine url], .ok none)

/-- The version precondition and everything after it: read and parse the
manifest, read `pkg.dependencies[packageName]`, compare with
`beforeVersion` under JS strict equality, then continue with
`bumpAfterVersionCheck`. Property reads on `null`/`undefined` throw
(`runtime`); a lookup on a primitive yields `undefined`, which fails the
strict-equality assert. -/
def bumpFromManifest (env : Env) (info : RepoInfo)
    (packageName beforeVersion afterVersion : String)
    (evs : List Event) : List Event × Except BumpError (Option String) :=
  let evRead := evs ++ [Event.readManifest]
  match env.manifest with
  | .error e => (evRead, .error (.runtime e))
  | .ok Json.null => (evRead, .error (.runtime "TypeError: cannot read dependencies of null"))
  | .ok (Json.obj mf) =>
    match lookupField mf "dependencies" with
    | none => (evRead, .error (.runtime "TypeError: cannot index undefined"))
    | some Json.null => (evRead, .error (.runtime "TypeError: cannot index null"))
    | some (Json.obj df) =>
      match lookupField df packageName with
      | some (Json.str cur) =>
        if cur = beforeVersion then
          bumpAfterVersionCheck env info mf df packageName afterVersion evRead
        else
          (evRead, .error (.precondition (cur ++ " must equal " ++ beforeVersion)))
      | _ => (evRead, .error (.precondition ("undefined must equal " ++ beforeVersion)))
    | some _ => (evRead, .error (.precondition ("undefined must equal " ++ beforeVersion)))
  | .ok _ => (evRead, .error (.runtime "TypeError: cannot index undefined"))

/-- `exports.bump` of `src/bin/bump.js`: credential asserts, repo info,
derived names, clean-tree check, checkout master, pull (fetch + merge),
version precondition, branch, manifest write, commit, push, PR.
The result pairs the ordered effects with the outcome; a successful run
resolves with `none` (the JS function ends in `console.log(url)` and
returns `undefined`). -/
def bump (env : Env) (inputPath packageName beforeVersion afterVersion : String) :
    List Event × Except BumpError (Option String) :=
  match truthy env.githubUsername with
  | false => ([], .error (.configuration "GITHUB_USERNAME required"))
  | true =>
    match truthy env.githubPassword with
    | false => ([], .error (.configuration "GITHUB_PASSWORD required"))
    | true =>
      match env.repoInfo with
      | .error e => ([Event.getRemote "origin"], .error (.versionControl e))
      | .ok info =>
        let evStatus := [Event.getRemote "origin", Event.statusCheck]
        match env.hasUncommittedChanges with
        | true =>
          (evStatus, .error (.precondition
            ("The repo (" ++ inputPath ++ ") has uncommitted changes.")))
        | false =>
          let evMaster := evStatus ++ [Event.checkoutBranch "master"]
          match env.checkoutMasterOk with
          | false => (evMaster, .error (.versionControl "checkout master failed"))
          | true =>
            let evFetch := evMaster ++ [Event.fetchAll]
            match env.fetchOk with
            | false => (evFetch, .error (.versionControl "fetch failed"))
            | true =>
              let evMerge := evFetch ++ [Event.mergeBranches "master" "origin/master"]
              match env.mergeOk with
              | false => (evMerge, .error (.versionControl "merge conflict"))
              | true =>
                bumpFromManifest env info packageName beforeVersion afterVersion evMerge

/-! ### Helper predicates on outcomes and events -/

/-- Whether an outcome is an aborted run. -/
def isErr : Except BumpError (Option String) → Bool
  | .error _ => true
  | .ok _ => false

/-- Whether an event mutates git state: a checkout, branch creation,
commit or push. -/
def mutatesRepo : Event → Bool
  | .checkoutBranch _ => true
  | .createBranch _ => true
  | .commit _ _ => true
  | .push _ => true
  | _ => false

/-- Whether an event is branch creation or any of the steps that can only
follow it: manifest write, commit, push, PR creation. -/
def isBranchOrLater : Event → Bool
  | .createBranch _ => true
  | .writeManifest _ => true
  | .commit _ _ => true
  | .push _ => true
  | .createPR _ _ _ _ _ => true
  | _ => false

/-- Whether an event writes the manifest file. -/
def isManifestWrite : Event → Bool
  | .writeManifest _ => true
  | _ => false

/-- Whether an event is a PR-creation request. -/
def isPRCreation : Event → Bool
  | .createPR _ _ _ _ _ => true
  | _ => false

/-- The version the manifest records for `packageName`: the value of
`packageName` under the top-level `dependencies` mapping, when the
manifest parses and both reads land on objects. -/
def recordedVersion (env : Env) (packageName : String) : Option Json :=
  match env.manifest with
  | .error _ => none
  | .ok m =>
    match jsGetField m "dependencies" with
    | none => none
    | some deps => jsGetField deps packageName

/-- The full effect trace of a successful run. -/
def successTrace (info : RepoInfo) (mf df : List (String × Json))
    (packageName afterVersion url : String) : List Event :=
  [Event.getRemote "origin", Event.statusCheck, Event.checkoutBranch "master",
   Event.fetchAll, Event.mergeBranches "master" "origin/master", Event.readManifest,
   Event.createBranch (bumpBranchName packageName afterVersion),
   Event.checkoutBranch (bumpBranchName packageName afterVersion),
   Event.writeManifest (jsonStringify2 (updatedManifest mf df packageName afterVersion) ++ "\n"),
   Event.commit ["package.json"] (bumpCommitMessage packageName afterVersion),
   Event.push ("refs/heads/" ++ bumpBranchName packageName afterVersion ++ ":refs/heads/" ++
     bumpBranchName packageName afterVersion),
   Event.printLine ("Pushed " ++ bumpBranchName packageName afterVersion ++ " to " ++
     info.owner ++ "/" ++ info.name),
   Event.createPR info.owner info.name (bumpBranchName packageName afterVersion) "master"
     ("[Technical] " ++ bumpCommitMessage packageName afterVersion),
   Event.printLine url]

/-! ### Association-list lemmas -/

theorem containsKey_of_lookupField {fields : List (String × Json)} {k : String} {v : Json}
    (h : lookupField fields k = some v) : containsKey fields k = true := by
  induction fields with
  | nil => simp [lookupField] at h
  | cons p rest ih =>
    rcases p with ⟨k0, v0⟩
    by_cases hk : k0 = k
    · simp [containsKey, hk]
    · rw [lookupField, if_neg hk] at h
      have h2 := ih h
      simp [containsKey] at h2 ⊢
      exact Or.inr h2

theorem containsKey_cons_tail {k0 : String} {v0 : Json}
    {rest : List (String × Json)} {k : String}
    (h : containsKey ((k0, v0) :: rest) k = true) (hk : k0 ≠ k) :
    containsKey rest k = true := by
  simp [containsKey] at h ⊢
  rcases h with h | h
  · exact absurd h hk
  · exact h

theorem lookupField_setKeyList_self {fields : List (String × Json)} {k : String} {v : Json}
    (h : containsKey fields k = true) :
    lookupField (setKeyList fields k v) k = some v := by
  induction fields with
  | nil => simp [containsKey] at h
  | cons p rest ih =>
    rcases p with ⟨k0, v0⟩
    by_cases hk : k0 = k
    · simp [setKeyList, hk, lookupField]
    · simp [setKeyList, hk, lookupField, ih (containsKey_cons_tail h hk)]

theorem lookupField_setKeyList_ne {fields : List (String × Json)} {k k' : String} {v : Json}
    (h : k' ≠ k) :
    lookupField (setKeyList fields k v) k' = lookupField fields k' := by
  induction fields with
  | nil => simp [setKeyList]
  | cons p rest ih =>
    rcases p with ⟨k0, v0⟩
    by_cases hk : k0 = k
    · simp [setKeyList, hk, lookupField, Ne.symm h, ih]
    · by_cases hk' : k0 = k' <;> simp [setKeyList, hk, lookupField, hk', h, ih]

theorem lookupField_append_single_ne {fields : List (String × Json)} {k k' : String} {v : Json}
    (h : k' ≠ k) :
    lookupField (fields ++ [(k, v)]) k' = lookupField fields k' := by
  induction fields with
  | nil => simp [lookupField, Ne.symm h]
  | cons p rest ih =>
    rcases p with ⟨k0, v0⟩
    by_cases hk' : k0 = k' <;> simp [lookupField, hk', ih]

theorem lookupField_setKey_self {fields : List (String × Json)} {k : String} {v : Json}
    (h : containsKey fields k = true) :
    lookupField (setKey fields k v) k = some v := by
  rw [setKey, if_pos h]
  exact lookupField_setKeyList_self h

theorem lookupField_setKey_ne {fields : List (String × Json)} {k k' : String} {v : Json}
    (h : k' ≠ k) :
    lookupField (setKey fields k v) k' = lookupField fields k' := by
  rw [setKey]
  by_cases hc : containsKey fields k = true
  · rw [if_pos hc]
    exact lookupField_setKeyList_ne h
  · rw [if_neg hc]
    exact lookupField_append_single_ne h

/-! ### Sanitization lemmas -/

/-- The amended sanitization of the version (spec wording: strips every
`^` and `~`). -/
def amendedSafeVersion (v : String) : String :=
  String.mk (v.data.filter (fun c => ¬(c = '^' ∨ c = '~')))

/-- Not the `/` character. -/
def notSlash (c : Char) : Bool := c ≠ '/'

/-- Replace the first `/` with `-` (spec wording for the amended claim):
everything before the first `/` is kept, the first `/` becomes `-`, the
rest is kept. -/
def amendedReplaceFirstSlash (l : List Char) : List Char :=
  match l.dropWhile notSlash with
  | [] => l
  | _ :: post => l.takeWhile notSlash ++ '-' :: post

/-- The amended sanitization of the package name (spec wording: remove
the first `@`, then replace the first `/` with `-`). -/
def amendedSafePackageName (packageName : String) : String :=
  String.mk (amendedReplaceFirstSlash (packageName.data.erase '@'))

theorem regexRemoveCaretTilde_eq_filter (l : List Char) :
    regexRemoveCaretTilde l = l.filter (fun c => ¬(c = '^' ∨ c = '~')) := by
  induction l with
  | nil => simp [regexRemoveCaretTilde]
  | cons c rest ih =>
    rw [regexRemoveCaretTilde]
    by_cases h1 : c = '^'
    · subst h1
      simp [List.filter_cons, ih]
    · by_cases h2 : c = '~'
      · subst h2
        simp [List.filter_cons, ih]
      · simp [h1, h2, List.filter_cons, ih]

theorem safeVersion_eq_amended (v : String) :
    safeVersion v = amendedSafeVersion v := by
  simp [safeVersion, amendedSafeVersion, regexRemoveCaretTilde_eq_filter]

theorem jsReplaceFirst_at_eq_erase (l : List Char) :
    jsReplaceFirst '@' [] l = l.erase '@' := by
  induction l with
  | nil => simp [jsReplaceFirst]
  | cons c rest ih =>
    by_cases hc : c = '@'
    · simp [jsReplaceFirst, hc, List.erase_cons]
    · simp [jsReplaceFirst, hc, List.erase_cons, ih]

theorem jsReplaceFirst_slash_eq_amended (l : List Char) :
    jsReplaceFirst '/' ['-'] l = amendedReplaceFirstSlash l := by
  induction l with
  | nil => rfl
  | cons c rest ih =>
    by_cases hc : c = '/'
    · subst hc
      have hns : notSlash '/' = false := by decide
      rw [jsReplaceFirst, if_pos rfl, amendedReplaceFirstSlash,
        List.dropWhile_cons, hns]
      simp [List.takeWhile_cons, hns]
    · have hns : notSlash c = true := by simp [notSlash, hc]
      rw [jsReplaceFirst, if_neg hc, ih, amendedReplaceFirstSlash, amendedReplaceFirstSlash,
        List.dropWhile_cons, hns, List.takeWhile_cons, hns]
      cases he : rest.dropWhile notSlash with
      | nil => simp
      | cons x post => simp

theorem safePackageName_eq_amended (pn : String) :
    safePackageName pn = amendedSafePackageName pn := by
  simp [safePackageName, amendedSafePackageName, jsReplaceFirst_at_eq_erase,
    jsReplaceFirst_slash_eq_amended]

/-! ### Run-level helper lemmas -/

theorem bump_ok_eq (env : Env) (inputPath packageName beforeVersion afterVersion : String)
    (info : RepoInfo) (mf df : List (String × Json)) (url : String)
    (hu : truthy env.githubUsername = true)
    (hp : truthy env.githubPassword = true)
    (hr : env.repoInfo = .ok info)
    (hclean : env.hasUncommittedChanges = false)
    (hco : env.checkoutMasterOk = true)
    (hf : env.fetchOk = true)
    (hm : env.mergeOk = true)
    (hman : env.manifest = .ok (Json.obj mf))
    (hdeps : lookupField mf "dependencies" = some (Json.obj df))
    (hcur : lookupField df packageName = some (Json.str beforeVersion))
    (hcb : env.createBranchOk = true)
    (hcn : env.checkoutNewOk = true)
    (hcm : env.commitOk = true)
    (hpush : env.pushOk = true)
    (hpr : env.prResult = .ok url) :
    bump env inputPath packageName beforeVersion afterVersion =
      (successTrace info mf df packageName afterVersion url, .ok none) := by
  simp [bump, bumpFromManifest, bumpAfterVersionCheck, successTrace,
    hu, hp, hr, hclean, hco, hf, hm, hman, hdeps, hcur, hcb, hcn, hcm, hpush, hpr]

theorem bump_ok_inv (env : Env) (inputPath packageName beforeVersion afterVersion : String)
    (v : Option String)
    (h : (bump env inputPath packageName beforeVersion afterVersion).2 = .ok v) :
    truthy env.githubUsername = true ∧ truthy env.githubPassword = true ∧
    (∃ info, env.repoInfo = .ok info) ∧
    env.hasUncommittedChanges = false ∧
    env.checkoutMasterOk = true ∧ env.fetchOk = true ∧ env.mergeOk = true ∧
    (∃ mf df, env.manifest = .ok (Json.obj mf) ∧
      lookupField mf "dependencies" = some (Json.obj df) ∧
      lookupField df packageName = some (Json.str beforeVersion)) ∧
    env.createBranchOk = true ∧ env.checkoutNewOk = true ∧
    env.commitOk = true ∧ env.pushOk = true ∧ (∃ url, env.prResult = .ok url) := by
  cases hu : truthy env.githubUsername with
  | false => simp [bump, hu] at h
  | true =>
  cases hp : truthy env.githubPassword with
  | false => simp [bump, hu, hp] at h
  | true =>
  rcases hr : env.repoInfo with e | info
  case error => simp [bump, hu, hp, hr] at h
  cases hd : env.hasUncommittedChanges with
  | true => simp [bump, hu, hp, hr, hd] at h
  | false =>
  cases hco : env.checkoutMasterOk with
  | false => simp [bump, hu, hp, hr, hd, hco] at h
  | true =>
  cases hf : env.fetchOk with
  | false => simp [bump, hu, hp, hr, hd, hco, hf] at h
  | true =>
  cases hm : env.mergeOk with
  | false => simp [bump, hu, hp, hr, hd, hco, hf, hm] at h
  | true =>
  rcases hman : env.manifest with e | m
  case error => simp [bump, bumpFromManifest, hu, hp, hr, hd, hco, hf, hm, hman] at h
  rcases m with _ | b | n | s | items | mf
  case null => simp [bump, bumpFromManifest, hu, hp, hr, hd, hco, hf, hm, hman] at h
  case bool => simp [bump, bumpFromManifest, hu, hp, hr, hd, hco, hf, hm, hman] at h
  case num => simp [bump, bumpFromManifest, hu, hp, hr, hd, hco, hf, hm, hman] at h
  case str => simp [bump, bumpFromManifest, hu, hp, hr, hd, hco, hf, hm, hman] at h
  case arr => simp [bump, bumpFromManifest, hu, hp, hr, hd, hco, hf, hm, hman] at h
  rcases hdeps : lookupField mf "dependencies" with _ | d
  case none => simp [bump, bumpFromManifest, hu, hp, hr, hd, hco, hf, hm, hman, hdeps] at h
  rcases d with _ | b | n | s | items | df
  case null =>
    simp [bump, bumpFromManifest, hu, hp, hr, hd, hco, hf, hm, hman, hdeps] at h
  case bool =>
    simp [bump, bumpFromManifest, hu, hp, hr, hd, hco, hf, hm, hman, hdeps] at h
  case num =>
    simp [bump, bumpFromManifest, hu, hp, hr, hd, hco, hf, hm, hman, hdeps] at h
  case str =>
    simp [bump, bumpFromManifest, hu, hp, hr, hd, hco, hf, hm, hman, hdeps] at h
  case arr =>
    simp [bump, bumpFromManifest, hu, hp, hr, hd, hco, hf, hm, hman, hdeps] at h
  rcases hcur : lookupField df packageName with _ | jv
  case none =>
    simp [bump, bumpFromManifest, hu, hp, hr, hd, hco, hf, hm, hman, hdeps, hcur] at h
  rcases jv with _ | b | n | cur | items | f2
  case null =>
    simp [bump, bumpFromManifest, hu, hp, hr, hd, hco, hf, hm, hman, hdeps, hcur] at h
  case bool =>
    simp [bump, bumpFromManifest, hu, hp, hr, hd, hco, hf, hm, hman, hdeps, hcur] at h
  case num =>
    simp [bump, bumpFromManifest, hu, hp, hr, hd, hco, hf, hm, hman, hdeps, hcur] at h
  case arr =>
    simp [bump, bumpFromManifest, hu, hp, hr, hd, hco, hf, hm, hman, hdeps, hcur] at h
  case obj =>
    simp [bump, bumpFromManifest, hu, hp, hr, hd, hco, hf, hm, hman, hdeps, hcur] at h
  by_cases hbv : cur = beforeVersion
  case neg =>
    simp [bump, bumpFromManifest, hu, hp, hr, hd, hco, hf, hm, hman, hdeps, hcur, hbv] at h
  subst hbv
  cases hcb : env.createBranchOk with
  | false =>
    simp [bump, bumpFromManifest, bumpAfterVersionCheck,
      hu, hp, hr, hd, hco, hf, hm, hman, hdeps, hcur, hcb] at h
  | true =>
  cases hcn : env.checkoutNewOk with
  | false =>
    simp [bump, bumpFromManifest, bumpAfterVersionCheck,
      hu, hp, hr, hd, hco, hf, hm, hman, hdeps, hcur, hcb, hcn] at h
  | true =>
  cases hcm : env.commitOk with
  | false =>
    simp [bump, bumpFromManifest, bumpAfterVersionCheck,
      hu, hp, hr, hd, hco, hf, hm, hman, hdeps, hcur, hcb, hcn, hcm] at h
  | true =>
  cases hpush : env.pushOk with
  | false =>
    simp [bump, bumpFromManifest, bumpAfterVersionCheck,
      hu, hp, hr, hd, hco, hf, hm, hman, hdeps, hcur, hcb, hcn, hcm, hpush] at h
  | true =>
  rcases hpr : env.prResult with e | url
  · simp [bump, bumpFromManifest, bumpAfterVersionCheck,
      hu, hp, hr, hd, hco, hf, hm, hman, hdeps, hcur, hcb, hcn, hcm, hpush, hpr] at h
  · exact ⟨rfl, rfl, ⟨info, rfl⟩, rfl, rfl, rfl, rfl, ⟨mf, df, rfl, hdeps, hcur⟩,
      rfl, rfl, rfl, rfl, ⟨url, rfl⟩⟩

theorem bumpFromManifest_mismatch (env : Env) (info : RepoInfo)
    (packageName beforeVersion afterVersion : String) (evs : List Event)
    (h : recordedVersion env packageName ≠ some (Json.str beforeVersion)) :
    (bumpFromManifest env info packageName beforeVersion afterVersion evs).1 =
      evs ++ [Event.readManifest] ∧
    isErr (bumpFromManifest env info packageName beforeVersion afterVersion evs).2 = true := by
  rcases hman : env.manifest with e | m
  · simp [bumpFromManifest, hman, isErr]
  · rcases m with _ | b | n | s | items | mf
    · simp [bumpFromManifest, hman, isErr]
    · simp [bumpFromManifest, hman, isErr]
    · simp [bumpFromManifest, hman, isErr]
    · simp [bumpFromManifest, hman, isErr]
    · simp [bumpFromManifest, hman, isErr]
    · rcases hdeps : lookupField mf "dependencies" with _ | d
      · simp [bumpFromManifest, hman, hdeps, isErr]
      · rcases d with _ | b | n | s | items | df
        · simp [bumpFromManifest, hman, hdeps, isErr]
        · simp [bumpFromManifest, hman, hdeps, isErr]
        · simp [bumpFromManifest, hman, hdeps, isErr]
        · simp [bumpFromManifest, hman, hdeps, isErr]
        · simp [bumpFromManifest, hman, hdeps, isErr]
        · rcases hcur : lookupField df packageName with _ | jv
          · simp [bumpFromManifest, hman, hdeps, hcur, isErr]
          · rcases jv with _ | b | n | cur | items | f2
            · simp [bumpFromManifest, hman, hdeps, hcur, isErr]
            · simp [bumpFromManifest, hman, hdeps, hcur, isErr]
            · simp [bumpFromManifest, hman, hdeps, hcur, isErr]
            · by_cases hbv : cur = beforeVersion
              · exact absurd (by simp [recordedVersion, hman, jsGetField, hdeps, hcur, hbv]) h
              · simp [bumpFromManifest, hman, hdeps, hcur, hbv, isErr]
            · simp [bumpFromManifest, hman, hdeps, hcur, isErr]
            · simp [bumpFromManifest, hman, hdeps, hcur, isErr]

/-! ### Spec-side definitions for the naming claim (C2) -/

/-- The C2 claim's sanitization of the version: strips exactly every `^`
and `~` character. -/
def claimSafeVersion (v : String) : String :=
  String.mk (v.data.filter (fun c => ¬(c = '^' ∨ c = '~')))

/-- The C2 claim's sanitization of the package name: strips exactly every
`@` and `/` character. -/
def claimSafePackageName (pn : String) : String :=
  String.mk (pn.data.filter (fun c => ¬(c = '@' ∨ c = '/')))

/-- The branch name the C2 claim predicts. -/
def claimBranchName (pn v : String) : String :=
  "bump-" ++ claimSafePackageName pn ++ "-v" ++ claimSafeVersion v

/-! ### Trace-level predicates -/

/-- No git-mutating operation in a trace: no checkout, branch creation,
commit or push. -/
def noGitMutation (evs : List Event) : Bool :=
  evs.all (fun ev => !mutatesRepo ev)

/-- No branch creation nor any of the later steps (manifest write, commit,
push, PR creation) in a trace. -/
def noBranchOrLater (evs : List Event) : Bool :=
  evs.all (fun ev => !isBranchOrLater ev)

/-- No PR-creation request in a trace. -/
def noPRCreation (evs : List Event) : Bool :=
  evs.all (fun ev => !isPRCreation ev)

/-! ### Concrete data for the witnesses -/

/-- Dependencies of the witnesses' manifest. -/
def dfW : List (String × Json) :=
  [("left-pad", Json.str "1.0.0"), ("request", Json.str "2.0.0")]

/-- Fields of the witnesses' manifest. -/
def mfW : List (String × Json) :=
  [("name", Json.str "demo"), ("dependencies", Json.obj dfW),
    ("devDependencies", Json.obj [("mocha", Json.str "5.0.0")])]

/-- A concrete manifest used by the witnesses. -/
def manifestW : Json := Json.obj mfW

/-- A concrete repository identity used by the witnesses. -/
def infoW : RepoInfo := ⟨"github.com", "acme", "demo"⟩

/-- The PR URL returned by the hosting API in the witnesses. -/
def prUrlW : String := "https://api.github.com/repos/acme/demo/pulls/7"

/-- An environment in which every collaborator call succeeds. -/
def envOkW : Env :=
  ⟨some "user", some "pass", .ok infoW, false, true, true, true, .ok manifestW,
    true, true, true, true, .ok prUrlW⟩

/-- Like `envOkW` but the working copy has uncommitted changes. -/
def envDirtyW : Env :=
  ⟨some "user", some "pass", .ok infoW, true, true, true, true, .ok manifestW,
    true, true, true, true, .ok prUrlW⟩

/-- Like `envOkW` but `GITHUB_PASSWORD` is absent. -/
def envNoCredW : Env :=
  ⟨some "user", none, .ok infoW, false, true, true, true, .ok manifestW,
    true, true, true, true, .ok prUrlW⟩

/-- Like `envOkW` but the manifest records `0.9.9` for `left-pad`. -/
def envMismatchW : Env :=
  ⟨some "user", some "pass", .ok infoW, false, true, true, true,
    .ok (Json.obj [("name", Json.str "demo"),
      ("dependencies", Json.obj [("left-pad", Json.str "0.9.9")])]),
    true, true, true, true, .ok prUrlW⟩

/-- Like `envOkW` but the push is rejected. -/
def envPushFailW : Env :=
  ⟨some "user", some "pass", .ok infoW, false, true, true, true, .ok manifestW,
    true, true, true, false, .ok prUrlW⟩

/-- Dependencies of the manifest that lacks `left-pad`. -/
def dfNoDepW : List (String × Json) := [("request", Json.str "2.0.0")]

/-- Fields of the manifest in which `left-pad` appears only under
`devDependencies`. -/
def mfNoDepW : List (String × Json) :=
  [("name", Json.str "demo"), ("dependencies", Json.obj dfNoDepW),
    ("devDependencies", Json.obj [("left-pad", Json.str "1.0.0")])]

/-- Like `envOkW` but `left-pad` is absent from `dependencies` and present
only under `devDependencies`. -/
def envNoDepW : Env :=
  ⟨some "user", some "pass", .ok infoW, false, true, true, true,
    .ok (Json.obj mfNoDepW), true, true, true, true, .ok prUrlW⟩

/-! ### Claim theorems -/

/-- C2 (counterexample): the claim says sanitization strips exactly every
`@` and `/` from the package name. On `@scope/pkg` the code removes only
the first `@` and replaces the first `/` with `-`, producing
`bump-scope-pkg-v1.2.0`, while the claimed stripping would produce
`bump-scopepkg-v1.2.0`. -/
theorem naming_strip_counterexample :
    bumpBranchName "@scope/pkg" "^1.2.0" = "bump-scope-pkg-v1.2.0" ∧
    claimBranchName "@scope/pkg" "^1.2.0" = "bump-scopepkg-v1.2.0" ∧
    bumpBranchName "@scope/pkg" "^1.2.0" ≠ claimBranchName "@scope/pkg" "^1.2.0" :=
  ⟨by decide, by decide, by decide⟩

/-- C2 (amended): branchName and commitMessage are pure deterministic
functions of (packageName, afterVersion):
branchName = `bump-<sp>-v<sv>` and commitMessage = `Bump <sp> to v<sv>`,
where `<sv>` strips exactly every `^` and `~` character from the version,
and `<sp>` removes the first `@` character from the package name and
replaces the first `/` character with `-`. -/
theorem naming_amended (pn v : String) :
    bumpBranchName pn v =
      "bump-" ++ amendedSafePackageName pn ++ "-v" ++ amendedSafeVersion v ∧
    bumpCommitMessage pn v =
      "Bump " ++ amendedSafePackageName pn ++ " to v" ++ amendedSafeVersion v := by
  rw [bumpBranchName, bumpCommitMessage, safePackageName_eq_amended, safeVersion_eq_amended]
  exact ⟨rfl, rfl⟩

/-- C4: whenever the working copy has uncommitted changes, the run fails,
and its trace contains no checkout, no branch creation, no commit and no
push. -/
theorem dirty_tree_fails_before_git_mutation (env : Env)
    (inputPath packageName beforeVersion afterVersion : String)
    (hdirty : env.hasUncommittedChanges = true) :
    isErr (bump env inputPath packageName beforeVersion afterVersion).2 = true ∧
    noGitMutation (bump env inputPath packageName beforeVersion afterVersion).1 = true := by
  cases hu : truthy env.githubUsername with
  | false => simp [bump, hu, isErr, noGitMutation, mutatesRepo]
  | true =>
  cases hp : truthy env.githubPassword with
  | false => simp [bump, hu, hp, isErr, noGitMutation, mutatesRepo]
  | true =>
  rcases hr : env.repoInfo with e | info
  · simp [bump, hu, hp, hr, isErr, noGitMutation, mutatesRepo]
  · simp [bump, hu, hp, hr, hdirty, isErr, noGitMutation, mutatesRepo]

/-- C4 witness: a dirty working copy aborts the run with no git-mutating
event in the trace. -/
theorem dirty_tree_fails_before_git_mutation_witness :
    envDirtyW.hasUncommittedChanges = true ∧
    (isErr (bump envDirtyW "/repo" "left-pad" "1.0.0" "^1.2.0").2 = true ∧
     noGitMutation (bump envDirtyW "/repo" "left-pad" "1.0.0" "^1.2.0").1 = true) :=
  ⟨rfl, dirty_tree_fails_before_git_mutation envDirtyW "/repo" "left-pad" "1.0.0" "^1.2.0" rfl⟩

/-- C5: when `GITHUB_USERNAME` or `GITHUB_PASSWORD` is absent, the run
performs no effect at all (empty trace) and fails with a configuration
error. -/
theorem missing_credentials_no_effects (env : Env)
    (inputPath packageName beforeVersion afterVersion : String)
    (hcred : env.githubUsername = none ∨ env.githubPassword = none) :
    (bump env inputPath packageName beforeVersion afterVersion).1 = [] ∧
    ∃ msg, (bump env inputPath packageName beforeVersion afterVersion).2 =
      .error (BumpError.configuration msg) := by
  rcases hcred with hcred | hcred
  · have hu : truthy env.githubUsername = false := by rw [hcred]; rfl
    simp [bump, hu]
  · cases hu : truthy env.githubUsername with
    | false => simp [bump, hu]
    | true =>
      have hp : truthy env.githubPassword = false := by rw [hcred]; rfl
      simp [bump, hu, hp]

/-- C5 witness: with `GITHUB_PASSWORD` absent, the run has an empty trace
and a configuration error. -/
theorem missing_credentials_no_effects_witness :
    (envNoCredW.githubUsername = none ∨ envNoCredW.githubPassword = none) ∧
    ((bump envNoCredW "/repo" "left-pad" "1.0.0" "^1.2.0").1 = [] ∧
     ∃ msg, (bump envNoCredW "/repo" "left-pad" "1.0.0" "^1.2.0").2 =
       .error (BumpError.configuration msg)) :=
  ⟨Or.inr rfl,
    missing_credentials_no_effects envNoCredW "/repo" "left-pad" "1.0.0" "^1.2.0" (Or.inr rfl)⟩

/-- C8: the host-to-API-base-URL mapping is a total pure function:
`github.com` maps to `https://api.github.com` and every other host `H`
maps to `https://H/api/v3`. -/
theorem getBaseUrl_total_mapping (host : String) (hne : host ≠ "github.com") :
    getBaseUrl "github.com" = "https://api.github.com" ∧
    getBaseUrl host = "https://" ++ host ++ "/api/v3" := by
  constructor
  · rfl
  · rw [getBaseUrl, if_neg hne]

/-- C8 witness: the mapping evaluated at `github.com` and at
`git.example.com`. -/
theorem getBaseUrl_total_mapping_witness :
    ("git.example.com" : String) ≠ "github.com" ∧
    (getBaseUrl "github.com" = "https://api.github.com" ∧
     getBaseUrl "git.example.com" = "https://" ++ "git.example.com" ++ "/api/v3") :=
  ⟨by decide, getBaseUrl_total_mapping "git.example.com" (by decide)⟩

/-- C3: when the version the manifest records for the package is a string
different from `beforeVersion`, the run fails, its trace contains no
branch creation (nor manifest write, commit, push or PR creation), and if
the run reaches the version check (credentials present, repo info read,
clean tree, checkout, fetch and merge all succeed) the failure is the
version-precondition error. -/
theorem version_mismatch_fails_before_branch (env : Env)
    (inputPath packageName beforeVersion afterVersion cur : String)
    (hrec : recordedVersion env packageName = some (Json.str cur))
    (hne : cur ≠ beforeVersion) :
    isErr (bump env inputPath packageName beforeVersion afterVersion).2 = true ∧
    noBranchOrLater (bump env inputPath packageName beforeVersion afterVersion).1 = true ∧
    (truthy env.githubUsername = true → truthy env.githubPassword = true →
     ∀ info, env.repoInfo = .ok info →
     env.hasUncommittedChanges = false → env.checkoutMasterOk = true →
     env.fetchOk = true → env.mergeOk = true →
     (bump env inputPath packageName beforeVersion afterVersion).2 =
       .error (.precondition (cur ++ " must equal " ++ beforeVersion))) := by
  rcases hman : env.manifest with e | m
  · simp [recordedVersion, hman] at hrec
  rcases m with _ | b | n | s | items | mf
  · simp [recordedVersion, hman, jsGetField] at hrec
  · simp [recordedVersion, hman, jsGetField] at hrec
  · simp [recordedVersion, hman, jsGetField] at hrec
  · simp [recordedVersion, hman, jsGetField] at hrec
  · simp [recordedVersion, hman, jsGetField] at hrec
  rcases hdeps : lookupField mf "dependencies" with _ | d
  · simp [recordedVersion, hman, jsGetField, hdeps] at hrec
  rcases d with _ | b | n | s | items | df
  · simp [recordedVersion, hman, jsGetField, hdeps] at hrec
  · simp [recordedVersion, hman, jsGetField, hdeps] at hrec
  · simp [recordedVersion, hman, jsGetField, hdeps] at hrec
  · simp [recordedVersion, hman, jsGetField, hdeps] at hrec
  · simp [recordedVersion, hman, jsGetField, hdeps] at hrec
  simp only [recordedVersion, hman, jsGetField, hdeps] at hrec
  cases hu : truthy env.githubUsername with
  | false => simp [bump, hu, isErr, noBranchOrLater, isBranchOrLater]
  | true =>
  cases hp : truthy env.githubPassword with
  | false => simp [bump, hu, hp, isErr, noBranchOrLater, isBranchOrLater]
  | true =>
  rcases hr : env.repoInfo with e | info
  · simp [bump, hu, hp, hr, isErr, noBranchOrLater, isBranchOrLater]
  cases hd : env.hasUncommittedChanges with
  | true => simp [bump, hu, hp, hr, hd, isErr, noBranchOrLater, isBranchOrLater]
  | false =>
  cases hco : env.checkoutMasterOk with
  | false => simp [bump, hu, hp, hr, hd, hco, isErr, noBranchOrLater, isBranchOrLater]
  | true =>
  cases hf : env.fetchOk with
  | false => simp [bump, hu, hp, hr, hd, hco, hf, isErr, noBranchOrLater, isBranchOrLater]
  | true =>
  cases hmg : env.mergeOk with
  | false =>
    simp [bump, hu, hp, hr, hd, hco, hf, hmg, isErr, noBranchOrLater, isBranchOrLater]
  | true =>
  simp [bump, bumpFromManifest, hu, hp, hr, hd, hco, hf, hmg, hman, hdeps, hrec, hne,
    isErr, noBranchOrLater, isBranchOrLater]

/-- C3 witness: a manifest recording `0.9.9` for `left-pad` makes the run
abort with the version-precondition error and no branch creation. -/
theorem version_mismatch_fails_before_branch_witness :
    recordedVersion envMismatchW "left-pad" = some (Json.str "0.9.9") ∧
    ("0.9.9" : String) ≠ "1.0.0" ∧
    (isErr (bump envMismatchW "/repo" "left-pad" "1.0.0" "^1.2.0").2 = true ∧
     noBranchOrLater (bump envMismatchW "/repo" "left-pad" "1.0.0" "^1.2.0").1 = true ∧
     (bump envMismatchW "/repo" "left-pad" "1.0.0" "^1.2.0").2 =
       .error (.precondition ("0.9.9" ++ " must equal " ++ "1.0.0"))) := by
  refine ⟨rfl, by decide, ?_⟩
  have h := version_mismatch_fails_before_branch envMismatchW "/repo" "left-pad"
    "1.0.0" "^1.2.0" "0.9.9" rfl (by decide)
  exact ⟨h.1, h.2.1, h.2.2 rfl rfl infoW rfl rfl rfl rfl rfl⟩

/-- C10: when the package is absent from the manifest's top-level
`dependencies` mapping (wherever else it may appear), the recorded value
consulted is `undefined`: the run fails, its trace contains no branch
creation (nor any later step), and if the run reaches the version check
the failure is the precondition error comparing `beforeVersion` against
the undefined value. -/
theorem missing_dependency_entry_fails (env : Env)
    (inputPath packageName beforeVersion afterVersion : String)
    (mf df : List (String × Json))
    (hman : env.manifest = .ok (Json.obj mf))
    (hdeps : lookupField mf "dependencies" = some (Json.obj df))
    (hmiss : lookupField df packageName = none) :
    isErr (bump env inputPath packageName beforeVersion afterVersion).2 = true ∧
    noBranchOrLater (bump env inputPath packageName beforeVersion afterVersion).1 = true ∧
    (truthy env.githubUsername = true → truthy env.githubPassword = true →
     ∀ info, env.repoInfo = .ok info →
     env.hasUncommittedChanges = false → env.checkoutMasterOk = true →
     env.fetchOk = true → env.mergeOk = true →
     (bump env inputPath packageName beforeVersion afterVersion).2 =
       .error (.precondition ("undefined must equal " ++ beforeVersion))) := by
  cases hu : truthy env.githubUsername with
  | false => simp [bump, hu, isErr, noBranchOrLater, isBranchOrLater]
  | true =>
  cases hp : truthy env.githubPassword with
  | false => simp [bump, hu, hp, isErr, noBranchOrLater, isBranchOrLater]
  | true =>
  rcases hr : env.repoInfo with e | info
  · simp [bump, hu, hp, hr, isErr, noBranchOrLater, isBranchOrLater]
  cases hd : env.hasUncommittedChanges with
  | true => simp [bump, hu, hp, hr, hd, isErr, noBranchOrLater, isBranchOrLater]
  | false =>
  cases hco : env.checkoutMasterOk with
  | false => simp [bump, hu, hp, hr, hd, hco, isErr, noBranchOrLater, isBranchOrLater]
  | true =>
  cases hf : env.fetchOk with
  | false => simp [bump, hu, hp, hr, hd, hco, hf, isErr, noBranchOrLater, isBranchOrLater]
  | true =>
  cases hmg : env.mergeOk with
  | false =>
    simp [bump, hu, hp, hr, hd, hco, hf, hmg, isErr, noBranchOrLater, isBranchOrLater]
  | true =>
  simp [bump, bumpFromManifest, hu, hp, hr, hd, hco, hf, hmg, hman, hdeps, hmiss,
    isErr, noBranchOrLater, isBranchOrLater]

/-- C10 witness: a manifest whose `dependencies` lacks `left-pad` (it sits
under `devDependencies`) makes the run abort with the
undefined-comparison precondition error and no branch creation. -/
theorem missing_dependency_entry_fails_witness :
    envNoDepW.manifest = .ok (Json.obj mfNoDepW) ∧
    lookupField mfNoDepW "dependencies" = some (Json.obj dfNoDepW) ∧
    lookupField dfNoDepW "left-pad" = none ∧
    (isErr (bump envNoDepW "/repo" "left-pad" "1.0.0" "^1.2.0").2 = true ∧
     noBranchOrLater (bump envNoDepW "/repo" "left-pad" "1.0.0" "^1.2.0").1 = true ∧
     (bump envNoDepW "/repo" "left-pad" "1.0.0" "^1.2.0").2 =
       .error (.precondition ("undefined must equal " ++ "1.0.0"))) := by
  refine ⟨rfl, rfl, rfl, ?_⟩
  have h := missing_dependency_entry_fails envNoDepW "/repo" "left-pad" "1.0.0" "^1.2.0"
    mfNoDepW dfNoDepW rfl rfl rfl
  exact ⟨h.1, h.2.1, h.2.2 rfl rfl infoW rfl rfl rfl rfl rfl⟩

/-- C1: a successful run on a manifest that records exactly
`beforeVersion` for the package writes the manifest exactly once, with
content `JSON.stringify(updated, null, 2)` plus a trailing newline, where
the updated manifest has the package's dependencies entry equal to
`afterVersion`, every other dependencies entry unchanged, and every other
top-level field unchanged. -/
theorem successful_run_manifest_frame (env : Env)
    (inputPath packageName beforeVersion afterVersion : String)
    (mf df : List (String × Json))
    (hman : env.manifest = .ok (Json.obj mf))
    (hdeps : lookupField mf "dependencies" = some (Json.obj df))
    (hcur : lookupField df packageName = some (Json.str beforeVersion))
    (hsucc : (bump env inputPath packageName beforeVersion afterVersion).2 = .ok none) :
    (bump env inputPath packageName beforeVersion afterVersion).1.filter isManifestWrite =
      [Event.writeManifest
        (jsonStringify2 (updatedManifest mf df packageName afterVersion) ++ "\n")] ∧
    jsGetField (updatedManifest mf df packageName afterVersion) "dependencies" =
      some (Json.obj (setKey df packageName (Json.str afterVersion))) ∧
    lookupField (setKey df packageName (Json.str afterVersion)) packageName =
      some (Json.str afterVersion) ∧
    (∀ k, k ≠ packageName →
      lookupField (setKey df packageName (Json.str afterVersion)) k = lookupField df k) ∧
    (∀ f, f ≠ "dependencies" →
      jsGetField (updatedManifest mf df packageName afterVersion) f =
        jsGetField (Json.obj mf) f) := by
  obtain ⟨hu, hp, ⟨info, hr⟩, hd, hco, hf, hmg, ⟨mf', df', hman', hdeps', hcur'⟩,
      hcb, hcn, hcm, hpush, ⟨url, hpr⟩⟩ :=
    bump_ok_inv env inputPath packageName beforeVersion afterVersion none hsucc
  rw [hman] at hman'
  injection hman' with hobj
  injection hobj with hmf
  subst hmf
  rw [hdeps] at hdeps'
  injection hdeps' with hobj2
  injection hobj2 with hdf
  subst hdf
  have heq := bump_ok_eq env inputPath packageName beforeVersion afterVersion info mf df url
    hu hp hr hd hco hf hmg hman hdeps hcur hcb hcn hcm hpush hpr
  refine ⟨?_, ?_, ?_, ?_, ?_⟩
  · rw [heq]
    simp [successTrace, isManifestWrite, List.filter]
  · simp [updatedManifest, jsGetField,
      lookupField_setKey_self (containsKey_of_lookupField hdeps)]
  · exact lookupField_setKey_self (containsKey_of_lookupField hcur)
  · intro k hk
    exact lookupField_setKey_ne hk
  · intro f hf2
    simp [updatedManifest, jsGetField, lookupField_setKey_ne hf2]

/-- C1 witness: the successful run on the concrete manifest writes the
updated manifest once; the `left-pad` entry becomes `^1.2.0` while
`request`, `name` and `devDependencies` are untouched. -/
theorem successful_run_manifest_frame_witness :
    envOkW.manifest = .ok (Json.obj mfW) ∧
    lookupField mfW "dependencies" = some (Json.obj dfW) ∧
    lookupField dfW "left-pad" = some (Json.str "1.0.0") ∧
    (bump envOkW "/repo" "left-pad" "1.0.0" "^1.2.0").2 = .ok none ∧
    lookupField (setKey dfW "left-pad" (Json.str "^1.2.0")) "left-pad" =
      some (Json.str "^1.2.0") ∧
    lookupField (setKey dfW "left-pad" (Json.str "^1.2.0")) "request" =
      lookupField dfW "request" ∧
    jsGetField (updatedManifest mfW dfW "left-pad" "^1.2.0") "name" =
      jsGetField (Json.obj mfW) "name" ∧
    (bump envOkW "/repo" "left-pad" "1.0.0" "^1.2.0").1.filter isManifestWrite =
      [Event.writeManifest
        (jsonStringify2 (updatedManifest mfW dfW "left-pad" "^1.2.0") ++ "\n")] := by
  have h := successful_run_manifest_frame envOkW "/repo" "left-pad" "1.0.0" "^1.2.0"
    mfW dfW rfl rfl rfl rfl
  exact ⟨rfl, rfl, rfl, rfl, h.2.2.1, h.2.2.2.1 "request" (by decide),
    h.2.2.2.2 "name" (by decide), h.1⟩

/-- C6: when every step up to and including the commit succeeds but the
push is rejected, the run fails with a version-control error; the trace
already contains the branch creation, the manifest write and the commit,
and contains no PR-creation request (and nothing is rolled back — the
trace is append-only by construction). -/
theorem push_failure_commit_exists_no_pr (env : Env)
    (inputPath packageName beforeVersion afterVersion : String)
    (info : RepoInfo) (mf df : List (String × Json))
    (hu : truthy env.githubUsername = true) (hp : truthy env.githubPassword = true)
    (hr : env.repoInfo = .ok info) (hclean : env.hasUncommittedChanges = false)
    (hco : env.checkoutMasterOk = true) (hf : env.fetchOk = true) (hmg : env.mergeOk = true)
    (hman : env.manifest = .ok (Json.obj mf))
    (hdeps : lookupField mf "dependencies" = some (Json.obj df))
    (hcur : lookupField df packageName = some (Json.str beforeVersion))
    (hcb : env.createBranchOk = true) (hcn : env.checkoutNewOk = true)
    (hcm : env.commitOk = true) (hpushF : env.pushOk = false) :
    (∃ msg, (bump env inputPath packageName beforeVersion afterVersion).2 =
      .error (BumpError.versionControl msg)) ∧
    Event.createBranch (bumpBranchName packageName afterVersion) ∈
      (bump env inputPath packageName beforeVersion afterVersion).1 ∧
    Event.writeManifest
        (jsonStringify2 (updatedManifest mf df packageName afterVersion) ++ "\n") ∈
      (bump env inputPath packageName beforeVersion afterVersion).1 ∧
    Event.commit ["package.json"] (bumpCommitMessage packageName afterVersion) ∈
      (bump env inputPath packageName beforeVersion afterVersion).1 ∧
    noPRCreation (bump env inputPath packageName beforeVersion afterVersion).1 = true := by
  simp [bump, bumpFromManifest, bumpAfterVersionCheck, hu, hp, hr, hclean, hco, hf, hmg,
    hman, hdeps, hcur, hcb, hcn, hcm, hpushF, noPRCreation, isPRCreation]

/-- C6 witness: the concrete run with a rejected push has its commit in
the trace and no PR-creation request. -/
theorem push_failure_commit_exists_no_pr_witness :
    envPushFailW.pushOk = false ∧
    ((∃ msg, (bump envPushFailW "/repo" "left-pad" "1.0.0" "^1.2.0").2 =
      .error (BumpError.versionControl msg)) ∧
    Event.createBranch (bumpBranchName "left-pad" "^1.2.0") ∈
      (bump envPushFailW "/repo" "left-pad" "1.0.0" "^1.2.0").1 ∧
    Event.writeManifest (jsonStringify2 (updatedManifest mfW dfW "left-pad" "^1.2.0") ++ "\n") ∈
      (bump envPushFailW "/repo" "left-pad" "1.0.0" "^1.2.0").1 ∧
    Event.commit ["package.json"] (bumpCommitMessage "left-pad" "^1.2.0") ∈
      (bump envPushFailW "/repo" "left-pad" "1.0.0" "^1.2.0").1 ∧
    noPRCreation (bump envPushFailW "/repo" "left-pad" "1.0.0" "^1.2.0").1 = true) :=
  ⟨rfl, push_failure_commit_exists_no_pr envPushFailW "/repo" "left-pad" "1.0.0" "^1.2.0"
    infoW mfW dfW rfl rfl rfl rfl rfl rfl rfl rfl rfl rfl rfl rfl rfl rfl⟩

/-- C7: every successful run issues exactly the PR-creation request with
head the derived branch name, base the repository's default branch
(`master` in the code), and title `[Technical] ` followed by the commit
message. -/
theorem successful_run_pr_request_fields (env : Env)
    (inputPath packageName beforeVersion afterVersion url : String)
    (info : RepoInfo) (mf df : List (String × Json))
    (hu : truthy env.githubUsername = true) (hp : truthy env.githubPassword = true)
    (hr : env.repoInfo = .ok info) (hclean : env.hasUncommittedChanges = false)
    (hco : env.checkoutMasterOk = true) (hf : env.fetchOk = true) (hmg : env.mergeOk = true)
    (hman : env.manifest = .ok (Json.obj mf))
    (hdeps : lookupField mf "dependencies" = some (Json.obj df))
    (hcur : lookupField df packageName = some (Json.str beforeVersion))
    (hcb : env.createBranchOk = true) (hcn : env.checkoutNewOk = true)
    (hcm : env.commitOk = true) (hpush : env.pushOk = true)
    (hpr : env.prResult = .ok url) :
    (bump env inputPath packageName beforeVersion afterVersion).2 = .ok none ∧
    Event.createPR info.owner info.name (bumpBranchName packageName afterVersion) "master"
        ("[Technical] " ++ bumpCommitMessage packageName afterVersion) ∈
      (bump env inputPath packageName beforeVersion afterVersion).1 := by
  have heq := bump_ok_eq env inputPath packageName beforeVersion afterVersion info mf df url
    hu hp hr hclean hco hf hmg hman hdeps hcur hcb hcn hcm hpush hpr
  rw [heq]
  refine ⟨rfl, ?_⟩
  simp [successTrace]

/-- C7 witness: the concrete successful run requests a PR with head
`bump-left-pad-v1.2.0`, base `master` and title
`[Technical] Bump left-pad to v1.2.0`. -/
theorem successful_run_pr_request_fields_witness :
    (bump envOkW "/repo" "left-pad" "1.0.0" "^1.2.0").2 = .ok none ∧
    Event.createPR infoW.owner infoW.name (bumpBranchName "left-pad" "^1.2.0") "master"
        ("[Technical] " ++ bumpCommitMessage "left-pad" "^1.2.0") ∈
      (bump envOkW "/repo" "left-pad" "1.0.0" "^1.2.0").1 :=
  successful_run_pr_request_fields envOkW "/repo" "left-pad" "1.0.0" "^1.2.0" prUrlW
    infoW mfW dfW rfl rfl rfl rfl rfl rfl rfl rfl rfl rfl rfl rfl rfl rfl rfl

/-- C9 (counterexample): in a successful concrete run the created PR's
URL is `prUrlW` (the hosting API returned it and the run printed it), yet
`bump` resolves with `undefined` (`none`), not with the URL: the claim
that `run(request)` returns the PR URL is false of the code, whose
`bump` ends in `console.log(url)` with no `return`. -/
theorem run_resolves_undefined_counterexample :
    envOkW.prResult = .ok prUrlW ∧
    (bump envOkW "/repo" "left-pad" "1.0.0" "^1.2.0").2 = .ok none ∧
    Event.printLine prUrlW ∈ (bump envOkW "/repo" "left-pad" "1.0.0" "^1.2.0").1 ∧
    (bump envOkW "/repo" "left-pad" "1.0.0" "^1.2.0").2 ≠ .ok (some prUrlW) := by
  have heq := bump_ok_eq envOkW "/repo" "left-pad" "1.0.0" "^1.2.0" infoW mfW dfW prUrlW
    rfl rfl rfl rfl rfl rfl rfl rfl rfl rfl rfl rfl rfl rfl rfl
  rw [heq]
  refine ⟨rfl, rfl, ?_, by simp⟩
  simp [successTrace]

/-- C9 (amended): every successful run resolves with no value
(`undefined`) and prints the created PR's URL as the final line of
standard output. -/
theorem successful_run_prints_pr_url (env : Env)
    (inputPath packageName beforeVersion afterVersion url : String)
    (info : RepoInfo) (mf df : List (String × Json))
    (hu : truthy env.githubUsername = true) (hp : truthy env.githubPassword = true)
    (hr : env.repoInfo = .ok info) (hclean : env.hasUncommittedChanges = false)
    (hco : env.checkoutMasterOk = true) (hf : env.fetchOk = true) (hmg : env.mergeOk = true)
    (hman : env.manifest = .ok (Json.obj mf))
    (hdeps : lookupField mf "dependencies" = some (Json.obj df))
    (hcur : lookupField df packageName = some (Json.str beforeVersion))
    (hcb : env.createBranchOk = true) (hcn : env.checkoutNewOk = true)
    (hcm : env.commitOk = true) (hpush : env.pushOk = true)
    (hpr : env.prResult = .ok url) :
    (bump env inputPath packageName beforeVersion afterVersion).2 = .ok none ∧
    (bump env inputPath packageName beforeVersion afterVersion).1.getLast? =
      some (Event.printLine url) := by
  have heq := bump_ok_eq env inputPath packageName beforeVersion afterVersion info mf df url
    hu hp hr hclean hco hf hmg hman hdeps hcur hcb hcn hcm hpush hpr
  rw [heq]
  exact ⟨rfl, rfl⟩

/-- C9 witness: the concrete successful run resolves with `none` and its
last stdout line is the PR URL. -/
theorem successful_run_prints_pr_url_witness :
    (bump envOkW "/repo" "left-pad" "1.0.0" "^1.2.0").2 = .ok none ∧
    (bump envOkW "/repo" "left-pad" "1.0.0" "^1.2.0").1.getLast? =
      some (Event.printLine prUrlW) :=
  successful_run_prints_pr_url envOkW "/repo" "left-pad" "1.0.0" "^1.2.0" prUrlW
    infoW mfW dfW rfl rfl rfl rfl rfl rfl rfl rfl rfl rfl rfl rfl rfl rfl rfl

end Pmg
